import Mathlib

/-!
Verification of the ngcccbase core (order-based coloring kernel,
transaction composer, UTXO store and UTXO/color query) against its
natural-language specification.

The definitions below are a shallow embedding of the Python sources:

* `src/coloredcoinlib/colordef.py` — `OBColorDefinition.run_kernel` and
  `OBColorDefinition.compose_tx_spec`;
* `src/utxodb.py` — `UTXOStore.add_utxo` and
  `UTXOQuery.get_utxos_for_address`.

Machine integers are modelled as `Nat` (Python integers are unbounded, and
all quantities involved are non-negative counts of base currency units);
fallible code (Python exceptions) is modelled with `Option` or `Except`.
-/

/-! ## Transactions and colorstates (data model of colordef.py)

A transaction exposes `hash`, ordered `inputs` (with their spent values
already resolved, i.e. after `tx.ensure_input_values()` has succeeded) and
ordered `outputs`.  A colorstate is either absent (`none`, Python `None`)
or a `(value, label)` pair. -/

structure TxInput where
  value : Nat
deriving DecidableEq

structure TxOutput where
  value : Nat
deriving DecidableEq

structure Tx where
  hash : String
  inputs : List TxInput
  outputs : List TxOutput
deriving DecidableEq

abbrev ColorState := Option (Nat × String)

structure Genesis where
  txhash : String
  height : Nat
  outindex : Nat
deriving DecidableEq

structure OBColorDefinition where
  color_id : Nat
  genesis : Genesis
deriving DecidableEq

/-! ## The order-based coloring kernel

`consumeLoop` embeds the inner `while` loop of `run_kernel`
(colordef.py lines 57-61):

    while cur_value < o.value:
        cur_value += tx.inputs[inp_index].value
        if colored:
            colored = (in_colorstates[inp_index] != None)
        inp_index += 1

An out-of-range list access raises `IndexError` in Python; the embedding
returns `none` in that case.  Note `in_colorstates[inp_index]` is only
evaluated when `colored` is true, exactly as in the source.  The `fuel`
argument only drives the recursion; called with `inputs.length + 1` it can
never cut the loop short, because each iteration advances `inpIndex`, so
the input lookup runs out of range before the fuel does. -/

def consumeLoop (inputs : List TxInput) (inCS : List ColorState) (target : Nat) :
    Nat → Nat → Nat → Bool → Option (Nat × Nat × Bool)
  | 0, inpIndex, curValue, colored =>
      if curValue < target then none else some (inpIndex, curValue, colored)
  | fuel + 1, inpIndex, curValue, colored =>
      if curValue < target then
        match inputs[inpIndex]? with
        | none => none
        | some inp =>
            if colored then
              match inCS[inpIndex]? with
              | none => none
              | some cs =>
                  consumeLoop inputs inCS target fuel (inpIndex + 1)
                    (curValue + inp.value) cs.isSome
            else
              consumeLoop inputs inCS target fuel (inpIndex + 1)
                (curValue + inp.value) false
      else some (inpIndex, curValue, colored)

/-- Full state at the end of a kernel run: the per-output colorstates plus
the final values of the loop variables `inp_index`, `cur_value`,
`colored` of `run_kernel`. -/
structure KernelResult where
  out_colorstates : List ColorState
  inp_index : Nat
  cur_value : Nat
  colored : Bool
deriving DecidableEq

/-- Embedding of the `for out_index in xrange(len(tx.outputs))` loop of
`OBColorDefinition.run_kernel` (colordef.py lines 53-70):

    for out_index in xrange(len(tx.outputs)):
        o = tx.outputs[out_index]
        if cur_value == 0:
            colored = True # reset
        while cur_value < o.value: ...   -- consumeLoop
        if is_genesis and (out_index == self.genesis["outindex"]):
            colored = True
        if colored:
            out_colorstates.append((o.value, ''))
        else:
            out_colorstates.append(None)

Note that `cur_value` is never decreased between outputs in the source. -/
def kernelLoop (inputs : List TxInput) (inCS : List ColorState) (isGenesis : Bool)
    (genesisOutindex : Nat) :
    List TxOutput → Nat → Nat → Nat → Bool → Option KernelResult
  | [], _, inpIndex, curValue, colored => some ⟨[], inpIndex, curValue, colored⟩
  | o :: rest, outIndex, inpIndex, curValue, colored =>
      let colored1 := if curValue = 0 then true else colored
      match consumeLoop inputs inCS o.value (inputs.length + 1) inpIndex curValue colored1 with
      | none => none
      | some (inpIndex2, curValue2, colored2) =>
          let colored3 := if isGenesis && outIndex == genesisOutindex then true else colored2
          let cs : ColorState := if colored3 then some (o.value, "") else none
          match kernelLoop inputs inCS isGenesis genesisOutindex rest (outIndex + 1)
              inpIndex2 curValue2 colored3 with
          | none => none
          | some res => some ⟨cs :: res.out_colorstates, res.inp_index, res.cur_value, res.colored⟩

/-- `OBColorDefinition.run_kernel` with the full final loop state exposed.
`is_genesis = (tx.hash == self.genesis["txhash"])` as in line 49. -/
def runKernelFull (cd : OBColorDefinition) (tx : Tx) (inCS : List ColorState) :
    Option KernelResult :=
  kernelLoop tx.inputs inCS (tx.hash == cd.genesis.txhash) cd.genesis.outindex
    tx.outputs 0 0 0 false

/-- `OBColorDefinition.run_kernel` (colordef.py lines 43-71): the list of
output colorstates, or `none` if the run raises. -/
def OBColorDefinition.run_kernel (cd : OBColorDefinition) (tx : Tx)
    (inCS : List ColorState) : Option (List ColorState) :=
  (runKernelFull cd tx inCS).map KernelResult.out_colorstates

/-! ## Invariants of the kernel loops -/

/-- Value of input `i` when its `in_colorstates` entry exists and is
present (non-`None`); `0` otherwise. -/
def presentValueAt (inputs : List TxInput) (inCS : List ColorState) (i : Nat) : Nat :=
  match inputs[i]?, inCS[i]? with
  | some inp, some (some _) => inp.value
  | _, _ => 0

/-- Sum of the values of the inputs with index `< k` whose
`in_colorstates` entry is present. -/
def presentSum (inputs : List TxInput) (inCS : List ColorState) : Nat → Nat
  | 0 => 0
  | k + 1 => presentSum inputs inCS k + presentValueAt inputs inCS k

/-- Total value of the inputs from index `i` on. -/
def sumFrom (inputs : List TxInput) (i : Nat) : Nat :=
  ((inputs.drop i).map TxInput.value).sum

/-- Total value of all inputs. -/
def inputSum (inputs : List TxInput) : Nat := (inputs.map TxInput.value).sum


/-! ## UTXO/color query (utxodb.py, `UTXOQuery.get_utxos_for_address`) -/

/-- A color set as used by the query layer: a set of color ids. -/
structure ColorSet where
  color_id_set : Finset Nat

/-- `ColorSet.has_color_id`: membership test on the id set. -/
def ColorSet.has_color_id (cs : ColorSet) (c : Nat) : Bool :=
  decide (c ∈ cs.color_id_set)

/-- A UTXO row as seen by the query, with its transiently attached
`colorvalues` (pairs of color id and quantity; `cv[0]` is the id). -/
structure QueryUTXO where
  txhash : String
  outindex : Nat
  value : Nat
  colorvalues : List (Nat × Nat)
deriving DecidableEq

/-- The local `relevant` predicate of `UTXOQuery.get_utxos_for_address`
(utxodb.py lines 143-150):

    def relevant(utxo):
        cvl = utxo.colorvalues
        if not cvl:
            return color_set.has_color_id(0)
        for cv in cvl:
            if color_set.has_color_id(cv[0]):
                return True
            return False

The `return False` sits inside the `for` body, so the loop never reaches
a second element: a non-empty list is decided entirely by its first
colorvalue.  (Falling off the end of the loop would return Python `None`,
falsy under `filter`; that cannot happen for a non-empty list.) -/
def relevant (color_set : ColorSet) (utxo : QueryUTXO) : Bool :=
  match utxo.colorvalues with
  | [] => color_set.has_color_id 0
  | cv :: _ => if color_set.has_color_id cv.1 then true else false

/-- `UTXOQuery.get_utxos_for_address` (utxodb.py lines 124-151), with the
collaborators passed as values: `color_set` is the color set of the query,
`addr_color_set` the declared color set of the address, `all_utxos` the rows
loaded for the address, and `get_colorvalues` the colordata lookup used
to attach `utxo.colorvalues` when the address is not uncolored-only. -/
def UTXOQuery_get_utxos_for_address (color_set addr_color_set : ColorSet)
    (all_utxos : List QueryUTXO)
    (get_colorvalues : Finset Nat → String → Nat → List (Nat × Nat)) :
    List QueryUTXO :=
  let address_is_uncolored := addr_color_set.color_id_set = ({0} : Finset Nat)
  let all_utxos :=
    if address_is_uncolored then all_utxos
    else all_utxos.map (fun u =>
      { u with colorvalues :=
          get_colorvalues addr_color_set.color_id_set u.txhash u.outindex })
  if address_is_uncolored then all_utxos
  else all_utxos.filter (relevant color_set)


/-! ## UTXO store (utxodb.py, `UTXOStore`) -/

/-- One row of the `utxo_data` table (utxodb.py lines 46-51). -/
structure UTXORow where
  id : Nat
  address : String
  txhash : String
  outindex : Nat
  value : Nat
  script : String
  scantime : Nat
  commitment : Nat
deriving DecidableEq

/-- The `utxo_data` table: rows in insertion order plus the autoincrement
counter for the `id` primary key. -/
structure UTXOStore where
  rows : List UTXORow
  next_id : Nat
deriving DecidableEq

/-- `UTXOStore.add_utxo` (utxodb.py lines 61-79): an INSERT into
`utxo_data`.  The schema declares `CREATE UNIQUE INDEX utxo_data_outpoint
ON utxo_data (txhash, outindex)` (lines 52-53), so sqlite rejects the
INSERT with an IntegrityError — leaving the table unchanged — whenever a
row with the same `(txhash, outindex)` outpoint already exists; otherwise
the row is appended.  `scantime` is modelled as always supplied (the
source merely defaults it to the current time when falsy). -/
def UTXOStore.add_utxo (s : UTXOStore) (address txhash : String)
    (outindex value : Nat) (script : String) (scantime commitment : Nat) :
    UTXOStore × Option String :=
  if s.rows.any (fun r => r.txhash == txhash && r.outindex == outindex) then
    (s, some "IntegrityError: columns txhash, outindex are not unique")
  else
    ({ rows := s.rows ++ [⟨s.next_id, address, txhash, outindex, value, script,
         scantime, commitment⟩],
       next_id := s.next_id + 1 }, none)


/-! ## Transaction composer (colordef.py, `compose_tx_spec`) -/

/-- One component of a Python target triple.  The source indexes targets
positionally and mixes numeric fields with address strings (the original
targets carry a number at position 2, while the appended change targets
carry an address there), so a field is either a number or an address. -/
inductive TField where
  | num : Nat → TField
  | addr : String → TField
deriving DecidableEq

/-- A spend target as consumed by `compose_tx_spec`: `target[1]` is the
color id; `target[0]` and `target[2]` are the remaining positional
fields. -/
abbrev Target := TField × Nat × TField

/-- The partition loop of `compose_tx_spec` (colordef.py lines 76-83):
each target goes to the colored or the uncolored bucket by `target[1]`;
any other color id raises before anything else happens. -/
def partitionTargets (color_id : Nat) :
    List Target → Except String (List Target × List Target)
  | [] => Except.ok ([], [])
  | t :: rest =>
      if t.2.1 = color_id then
        (partitionTargets color_id rest).map (fun p => (t :: p.1, p.2))
      else if t.2.1 = 0 then
        (partitionTargets color_id rest).map (fun p => (p.1, t :: p.2))
      else Except.error "ColorDef cannot work with this color_id"

/-- `sum([target[2] for target in targets])` (colordef.py lines 84-85):
Python sums numbers; a non-numeric `target[2]` would raise TypeError. -/
def sumTargets : List Target → Except String Nat
  | [] => Except.ok 0
  | t :: rest =>
      match t.2.2 with
      | TField.num n => (sumTargets rest).map (fun m => n + m)
      | TField.addr _ => Except.error "TypeError: unsupported operand type"

/-- The capabilities `compose_tx_spec` consumes from `op_tx_spec`:
`get_targets`, `select_coins` (modelled as a pure function from a color
id and a needed value to a list of selected coins and their total
value), `get_required_fee` and `get_change_addr`. -/
structure OpTxSpec where
  targets : List Target
  select_coins : Nat → Nat → List String × Nat
  required_fee : Nat → Nat
  change_addr : Nat → String

/-- `txspec.ComposedTxSpec`: selected inputs plus constructed outputs. -/
structure ComposedTxSpec where
  txins : List String
  txouts : List (TField × TField)
deriving DecidableEq

/-- `OBColorDefinition.compose_tx_spec` (colordef.py lines 73-99).  The
second component of the result records the `select_coins` calls actually
performed, in order, as `(color_id, needed_value)` pairs, so that claims
about the coin-selection state can be stated.

Two facts about the source are load-bearing here:
* both `select_coins` calls pass `self.color_id` (lines 86 and 88),
  including the one covering `uncolored_needed + fee`;
* the output construction (line 97) reads
  `TxOut(target[2]. target[0])`: because of the dot this is the attribute
  access `(target[2]).target` indexed with `[0]`, and tuple fields are
  ints or strings, which have no attribute `target`, so Python raises
  AttributeError on the first iteration of the comprehension; hence a
  `ComposedTxSpec` is only produced when there are no targets at all and
  the comprehension never iterates. -/
def OBColorDefinition.compose_tx_spec (cd : OBColorDefinition) (spec : OpTxSpec) :
    Except String ComposedTxSpec × List (Nat × Nat) :=
  match partitionTargets cd.color_id spec.targets with
  | Except.error e => (Except.error e, [])
  | Except.ok buckets =>
      match sumTargets buckets.1 with
      | Except.error e => (Except.error e, [])
      | Except.ok colored_needed =>
          match sumTargets buckets.2 with
          | Except.error e => (Except.error e, [])
          | Except.ok uncolored_needed =>
              let sel1 := spec.select_coins cd.color_id colored_needed
              let fee := spec.required_fee 750
              let sel2 := spec.select_coins cd.color_id (uncolored_needed + fee)
              let log := [(cd.color_id, colored_needed),
                          (cd.color_id, uncolored_needed + fee)]
              let colored_change : Int := (sel1.2 : Int) - (colored_needed : Int)
              let colored_targets :=
                if 0 < colored_change then
                  buckets.1 ++ [(TField.num colored_change.toNat, cd.color_id,
                    TField.addr (spec.change_addr cd.color_id))]
                else buckets.1
              let uncolored_change : Int :=
                (sel2.2 : Int) - (uncolored_needed : Int) - (fee : Int)
              let uncolored_targets :=
                if 0 < uncolored_change then
                  buckets.2 ++ [(TField.num uncolored_change.toNat, 0,
                    TField.addr (spec.change_addr 0))]
                else buckets.2
              let result : Except String ComposedTxSpec :=
                match colored_targets ++ uncolored_targets with
                | [] => Except.ok ⟨sel1.1 ++ sel2.1, []⟩
                | _ :: _ =>
                    Except.error "AttributeError: tuple object has no attribute target"
              (result, log)


theorem presentSum_mono (inputs : List TxInput) (inCS : List ColorState)
    {k k2 : Nat} (h : k ≤ k2) :
    presentSum inputs inCS k ≤ presentSum inputs inCS k2 := by
  induction h with
  | refl => exact Nat.le_refl _
  | step h2 ih => exact Nat.le_trans ih (Nat.le_add_right _ _)

theorem sumFrom_get (inputs : List TxInput) (i : Nat) (inp : TxInput)
    (h : inputs[i]? = some inp) :
    sumFrom inputs i = inp.value + sumFrom inputs (i + 1) := by
  rw [List.getElem?_eq_some] at h
  obtain ⟨hi, hget⟩ := h
  unfold sumFrom
  rw [List.drop_eq_getElem_cons hi, List.map_cons, List.sum_cons, hget]

/-- All invariants of the `while` loop of `run_kernel` at once: the input
cursor and accumulated value only grow, the loop only exits once the
output value is covered, consumption is bounded by the remaining input
value, and if the segment is still colored on exit then it was colored on
entry and every input consumed meanwhile had a present colorstate (so the
consumed value is accounted for by `presentSum`). -/
theorem consumeLoop_some (inputs : List TxInput) (inCS : List ColorState) (target : Nat) :
    ∀ fuel i cv c i2 cv2 c2,
      consumeLoop inputs inCS target fuel i cv c = some (i2, cv2, c2) →
      i ≤ i2 ∧ cv ≤ cv2 ∧ target ≤ cv2 ∧
      cv2 + sumFrom inputs i2 ≤ cv + sumFrom inputs i ∧
      (c2 = true → c = true ∧
        cv2 + presentSum inputs inCS i ≤ cv + presentSum inputs inCS i2)
  | 0, i, cv, c, i2, cv2, c2 => by
      intro h
      simp only [consumeLoop] at h
      split at h
      · simp at h
      · rename_i hlt
        simp only [Option.some.injEq, Prod.mk.injEq] at h
        obtain ⟨rfl, rfl, rfl⟩ := h
        exact ⟨Nat.le_refl _, Nat.le_refl _, Nat.le_of_not_lt hlt, Nat.le_refl _,
          fun hc => ⟨hc, Nat.le_refl _⟩⟩
  | fuel + 1, i, cv, c, i2, cv2, c2 => by
      intro h
      simp only [consumeLoop] at h
      split at h
      · rename_i hlt
        cases hin : inputs[i]? with
        | none => rw [hin] at h; simp at h
        | some inp =>
            rw [hin] at h
            simp only at h
            by_cases hc : c = true
            · rw [if_pos hc] at h
              cases hcs : inCS[i]? with
              | none => rw [hcs] at h; simp at h
              | some cs =>
                  rw [hcs] at h
                  simp only at h
                  obtain ⟨h1, h2, h3, h4, h5⟩ :=
                    consumeLoop_some inputs inCS target fuel (i + 1)
                      (cv + inp.value) cs.isSome i2 cv2 c2 h
                  have hs := sumFrom_get inputs i inp hin
                  refine ⟨by omega, by omega, h3, by omega, ?_⟩
                  intro hc2
                  obtain ⟨hcs2, h6⟩ := h5 hc2
                  refine ⟨hc, ?_⟩
                  obtain ⟨v, rfl⟩ : ∃ v, cs = some v := by
                    cases cs with
                    | none => simp at hcs2
                    | some v => exact ⟨v, rfl⟩
                  have hp : presentValueAt inputs inCS i = inp.value := by
                    simp [presentValueAt, hin, hcs]
                  have hps : presentSum inputs inCS (i + 1) =
                      presentSum inputs inCS i + inp.value := by
                    simp [presentSum, hp]
                  omega
            · rw [if_neg hc] at h
              obtain ⟨h1, h2, h3, h4, h5⟩ :=
                consumeLoop_some inputs inCS target fuel (i + 1)
                  (cv + inp.value) false i2 cv2 c2 h
              have hs := sumFrom_get inputs i inp hin
              refine ⟨by omega, by omega, h3, by omega, ?_⟩
              intro hc2
              exact absurd (h5 hc2).1 (by simp)
      · rename_i hlt
        simp only [Option.some.injEq, Prod.mk.injEq] at h
        obtain ⟨rfl, rfl, rfl⟩ := h
        exact ⟨Nat.le_refl _, Nat.le_refl _, Nat.le_of_not_lt hlt, Nat.le_refl _,
          fun hc => ⟨hc, Nat.le_refl _⟩⟩

/-- Unfolding equation for `kernelLoop` on a non-empty output list, with
the local lets written out. -/
theorem kernelLoop_cons (inputs : List TxInput) (inCS : List ColorState)
    (isG : Bool) (gidx : Nat) (o : TxOutput) (rest : List TxOutput)
    (outIdx i cv : Nat) (c : Bool) :
    kernelLoop inputs inCS isG gidx (o :: rest) outIdx i cv c =
      match consumeLoop inputs inCS o.value (inputs.length + 1) i cv
          (if cv = 0 then true else c) with
      | none => none
      | some (i2, cv2, c2) =>
          match kernelLoop inputs inCS isG gidx rest (outIdx + 1) i2 cv2
              (if isG && outIdx == gidx then true else c2) with
          | none => none
          | some res =>
              some ⟨(if (if isG && outIdx == gidx then true else c2) then
                        some (o.value, "") else none) :: res.out_colorstates,
                    res.inp_index, res.cur_value, res.colored⟩ := rfl

/-- Main invariant of the output loop of `run_kernel` on a non-genesis
run: every output marked present has value at most the present-input sum
up to the final input cursor. -/
theorem kernelLoop_presentBound (inputs : List TxInput) (inCS : List ColorState)
    (gidx : Nat) :
    ∀ outs outIdx i cv c res,
      kernelLoop inputs inCS false gidx outs outIdx i cv c = some res →
      (c = true → cv ≤ presentSum inputs inCS i) →
      i ≤ res.inp_index ∧
      (res.colored = true → res.cur_value ≤ presentSum inputs inCS res.inp_index) ∧
      ∀ (j v : Nat) (s : String), res.out_colorstates[j]? = some (some (v, s)) →
        v ≤ presentSum inputs inCS res.inp_index
  | [], outIdx, i, cv, c, res => by
      intro h hinv
      simp only [kernelLoop, Option.some.injEq] at h
      subst h
      refine ⟨Nat.le_refl _, hinv, ?_⟩
      intro j v s hj
      simp at hj
  | o :: rest, outIdx, i, cv, c, res => by
      intro h hinv
      rw [kernelLoop_cons] at h
      cases heq : consumeLoop inputs inCS o.value (inputs.length + 1) i cv
          (if cv = 0 then true else c) with
      | none => rw [heq] at h; simp at h
      | some trip =>
          obtain ⟨i2, cv2, c2⟩ := trip
          rw [heq] at h
          simp only [Bool.false_and, Bool.false_eq_true, if_false] at h
          cases heq2 : kernelLoop inputs inCS false gidx rest (outIdx + 1) i2 cv2 c2 with
          | none => rw [heq2] at h; simp at h
          | some res2 =>
              rw [heq2] at h
              simp only [Option.some.injEq] at h
              subst h
              dsimp only
              obtain ⟨h1, h2, h3, h4, h5⟩ :=
                consumeLoop_some inputs inCS o.value (inputs.length + 1) i cv
                  (if cv = 0 then true else c) i2 cv2 c2 heq
              have hinv2 : c2 = true → cv2 ≤ presentSum inputs inCS i2 := by
                intro hc2
                obtain ⟨hc1, hle⟩ := h5 hc2
                have hcv : cv ≤ presentSum inputs inCS i := by
                  by_cases h0 : cv = 0
                  · omega
                  · rw [if_neg h0] at hc1
                    exact hinv hc1
                omega
              obtain ⟨k1, k2, k3⟩ :=
                kernelLoop_presentBound inputs inCS gidx rest (outIdx + 1)
                  i2 cv2 c2 res2 heq2 hinv2
              refine ⟨by omega, k2, ?_⟩
              intro j v s hj
              cases j with
              | zero =>
                  simp only [List.getElem?_cons_zero, Option.some.injEq] at hj
                  cases hc2 : c2 with
                  | false => simp [hc2] at hj
                  | true =>
                      simp only [hc2] at hj
                      simp at hj
                      obtain ⟨hv, hs⟩ := hj
                      have hb := hinv2 hc2
                      have hmono := presentSum_mono inputs inCS k1
                      omega
              | succ j =>
                  simp only [List.getElem?_cons_succ] at hj
                  exact k3 j v s hj

/-! ## Claim C1 — color conservation for non-genesis runs

The claim as stated is false on the code: `run_kernel` never decreases
`cur_value` after finishing an output, so the same consumed colored input
value can back several outputs.  With one colored input of value 100 and
outputs 60 and 60, the run consumes exactly input 0 (final
`inp_index = 1`, so the consumed-and-present input value is 100) yet marks
both outputs present, for a total colored output value of 120. -/

/-- C1 counterexample: a non-genesis run whose summed present output
values (60 + 60) exceed the summed values of the consumed inputs with
present colorstates (100). -/
theorem obc_conservation_counterexample :
    ("t" : String) ≠ "g" ∧
    runKernelFull ⟨1, ⟨"g", 0, 0⟩⟩ ⟨"t", [⟨100⟩], [⟨60⟩, ⟨60⟩]⟩ [some (100, "")] =
      some ⟨[some (60, ""), some (60, "")], 1, 100, true⟩ ∧
    presentSum [⟨100⟩] [some (100, "")] 1 = 100 ∧ 100 < 60 + 60 := by
  refine ⟨by decide, by decide, by decide, by decide⟩

/-- C1 (amended): for a non-genesis transaction whose kernel run completes
without error, the value of each individual colorstate that
`run_kernel` marks present never exceeds the sum of the values of the
inputs that the run actually consumed (indices below the final
`inp_index`) and whose `in_colorstates` entry is present.  The sum over
all outputs can exceed that bound, as the counterexample shows. -/
theorem obc_per_output_conservation (cd : OBColorDefinition) (tx : Tx)
    (inCS : List ColorState) (res : KernelResult)
    (hhash : tx.hash ≠ cd.genesis.txhash)
    (hrun : runKernelFull cd tx inCS = some res)
    (j v : Nat) (s : String)
    (hout : res.out_colorstates[j]? = some (some (v, s))) :
    v ≤ presentSum tx.inputs inCS res.inp_index := by
  unfold runKernelFull at hrun
  rw [beq_eq_false_iff_ne.mpr hhash] at hrun
  exact (kernelLoop_presentBound tx.inputs inCS cd.genesis.outindex tx.outputs
    0 0 0 false res hrun (fun _ => Nat.zero_le _)).2.2 j v s hout

/-- Witness for `obc_per_output_conservation` at a concrete non-genesis
run: inputs `[100]` (present), outputs `[40, 60]`; output 0 is present
with value 40 and `40 ≤ presentSum = 100`. -/
theorem obc_per_output_conservation_witness :
    ("t" : String) ≠ "g" ∧
    runKernelFull ⟨1, ⟨"g", 0, 0⟩⟩ ⟨"t", [⟨100⟩], [⟨40⟩, ⟨60⟩]⟩ [some (100, "")] =
      some ⟨[some (40, ""), some (60, "")], 1, 100, true⟩ ∧
    40 ≤ presentSum [⟨100⟩] [some (100, "")] 1 :=
  ⟨by decide, by decide,
    obc_per_output_conservation ⟨1, ⟨"g", 0, 0⟩⟩ ⟨"t", [⟨100⟩], [⟨40⟩, ⟨60⟩]⟩
      [some (100, "")] ⟨[some (40, ""), some (60, "")], 1, 100, true⟩
      (by decide) (by decide) 0 40 "" (by decide)⟩

/-! ## Claim C4 — behaviour when input value does not cover the outputs

In the code, the walk runs past the end of the inputs (Python
`IndexError`) exactly when some single output value exceeds the total
input value; because `cur_value` is never decreased, a total output sum
exceeding the total input sum does not by itself make the walk fail. -/

theorem inputSum_eq_sumFrom (inputs : List TxInput) :
    inputSum inputs = sumFrom inputs 0 := rfl

/-- If some output value exceeds the total input value, the output loop
fails (the input walk runs out of inputs). -/
theorem kernelLoop_insufficient (inputs : List TxInput) (inCS : List ColorState)
    (isG : Bool) (gidx : Nat) :
    ∀ outs outIdx i cv c,
      cv + sumFrom inputs i ≤ sumFrom inputs 0 →
      (∃ (k : Nat) (o : TxOutput), outs[k]? = some o ∧ sumFrom inputs 0 < o.value) →
      kernelLoop inputs inCS isG gidx outs outIdx i cv c = none
  | [], outIdx, i, cv, c => by
      intro hle hex
      obtain ⟨k, o, hk, _⟩ := hex
      simp at hk
  | o1 :: rest, outIdx, i, cv, c => by
      intro hle hex
      rw [kernelLoop_cons]
      cases heq : consumeLoop inputs inCS o1.value (inputs.length + 1) i cv
          (if cv = 0 then true else c) with
      | none => rfl
      | some trip =>
          obtain ⟨i2, cv2, c2⟩ := trip
          obtain ⟨h1, h2, h3, h4, h5⟩ :=
            consumeLoop_some inputs inCS o1.value (inputs.length + 1) i cv
              (if cv = 0 then true else c) i2 cv2 c2 heq
          obtain ⟨k, o, hk, hbig⟩ := hex
          cases k with
          | zero =>
              simp only [List.getElem?_cons_zero, Option.some.injEq] at hk
              subst hk
              exfalso
              omega
          | succ k =>
              have hnone := kernelLoop_insufficient inputs inCS isG gidx rest
                (outIdx + 1) i2 cv2 (if isG && outIdx == gidx then true else c2)
                (by omega) ⟨k, o, by simpa using hk, hbig⟩
              dsimp only
              rw [hnone]

/-- C4 counterexample: total input value 100 is less than the total
output value 70 + 50 = 120, yet `run_kernel` completes and returns a
result sequence instead of raising. -/
theorem obc_insufficient_sum_counterexample :
    inputSum [⟨100⟩] < (([⟨70⟩, ⟨50⟩] : List TxOutput).map TxOutput.value).sum ∧
    OBColorDefinition.run_kernel ⟨1, ⟨"g", 0, 0⟩⟩ ⟨"t", [⟨100⟩], [⟨70⟩, ⟨50⟩]⟩
      [some (100, "")] = some [some (70, ""), some (50, "")] := by
  refine ⟨by decide, by decide⟩

/-- C4 (amended): for every transaction where the value of some
single output exceeds the total input value, `run_kernel` raises (the walk runs
past the end of the inputs, modelled as `none`) rather than returning a
result sequence; it never silently truncates the walk.  As stated over
the total output sum the claim fails, see the counterexample. -/
theorem obc_oversized_output_errors (cd : OBColorDefinition) (tx : Tx)
    (inCS : List ColorState) (j : Nat) (o : TxOutput)
    (ho : tx.outputs[j]? = some o) (hbig : inputSum tx.inputs < o.value) :
    cd.run_kernel tx inCS = none := by
  unfold OBColorDefinition.run_kernel runKernelFull
  rw [kernelLoop_insufficient tx.inputs inCS _ _ tx.outputs 0 0 0 false
    (by omega) ⟨j, o, ho, by rwa [inputSum_eq_sumFrom] at hbig⟩]
  rfl

/-- Witness for `obc_oversized_output_errors`: one input of value 10, one
output of value 20; the run fails. -/
theorem obc_oversized_output_errors_witness :
    ((⟨"t", [⟨10⟩], [⟨20⟩]⟩ : Tx).outputs[0]? = some ⟨20⟩) ∧
    inputSum [⟨10⟩] < 20 ∧
    OBColorDefinition.run_kernel ⟨1, ⟨"g", 0, 0⟩⟩ ⟨"t", [⟨10⟩], [⟨20⟩]⟩
      [some (10, "")] = none :=
  ⟨by decide, by decide,
    obc_oversized_output_errors ⟨1, ⟨"g", 0, 0⟩⟩ ⟨"t", [⟨10⟩], [⟨20⟩]⟩
      [some (10, "")] 0 ⟨20⟩ (by decide) (by decide)⟩

/-! ## Claim C2 — genesis minting

The input walk of the kernel is driven only by input values and output
values: the `colored` flag and `in_colorstates` never influence which
inputs are consumed, provided `in_colorstates` has one entry per input
(so that its lookups cannot fail). -/

/-- The `while` loop consumes the same inputs and accumulates the same
value for any colorstate list of full length and any incoming `colored`
flag. -/
theorem consumeLoop_indep (inputs : List TxInput) (inCS inCS2 : List ColorState)
    (target : Nat) (hlen : inCS2.length = inputs.length) :
    ∀ fuel i cv c i2 cv2 c2 c3,
      consumeLoop inputs inCS target fuel i cv c = some (i2, cv2, c2) →
      ∃ c4, consumeLoop inputs inCS2 target fuel i cv c3 = some (i2, cv2, c4)
  | 0, i, cv, c, i2, cv2, c2, c3 => by
      intro h
      simp only [consumeLoop] at h ⊢
      split at h
      · simp at h
      · rename_i hlt
        rw [if_neg hlt]
        simp only [Option.some.injEq, Prod.mk.injEq] at h
        obtain ⟨rfl, rfl, rfl⟩ := h
        exact ⟨c3, rfl⟩
  | fuel + 1, i, cv, c, i2, cv2, c2, c3 => by
      intro h
      simp only [consumeLoop] at h ⊢
      split at h
      · rename_i hlt
        rw [if_pos hlt]
        cases hin : inputs[i]? with
        | none => rw [hin] at h; simp at h
        | some inp =>
            rw [hin] at h
            dsimp only at h ⊢
            have hi : i < inputs.length := by
              rw [List.getElem?_eq_some] at hin
              exact hin.1
            obtain ⟨cm, hm⟩ :
                ∃ cm, consumeLoop inputs inCS target fuel (i + 1)
                  (cv + inp.value) cm = some (i2, cv2, c2) := by
              by_cases hc : c = true
              · rw [if_pos hc] at h
                cases hcs : inCS[i]? with
                | none => rw [hcs] at h; simp at h
                | some cs => rw [hcs] at h; exact ⟨cs.isSome, h⟩
              · rw [if_neg hc] at h
                exact ⟨false, h⟩
            by_cases hc3 : c3 = true
            · rw [if_pos hc3,
                List.getElem?_eq_getElem (show i < inCS2.length by omega)]
              dsimp only
              exact consumeLoop_indep inputs inCS inCS2 target hlen fuel (i + 1)
                (cv + inp.value) cm i2 cv2 c2 (inCS2[i]).isSome hm
            · rw [if_neg hc3]
              exact consumeLoop_indep inputs inCS inCS2 target hlen fuel (i + 1)
                (cv + inp.value) cm i2 cv2 c2 false hm
      · rename_i hlt
        rw [if_neg hlt]
        simp only [Option.some.injEq, Prod.mk.injEq] at h
        obtain ⟨rfl, rfl, rfl⟩ := h
        exact ⟨c3, rfl⟩

/-- The output loop consumes the same inputs (same final `inp_index` and
`cur_value`) for any full-length colorstate list, any genesis flag and
any incoming `colored` flag. -/
theorem kernelLoop_indep (inputs : List TxInput) (inCS inCS2 : List ColorState)
    (gidx : Nat) (isG isG2 : Bool) (hlen : inCS2.length = inputs.length) :
    ∀ outs outIdx i cv c c3 res,
      kernelLoop inputs inCS isG gidx outs outIdx i cv c = some res →
      ∃ res2, kernelLoop inputs inCS2 isG2 gidx outs outIdx i cv c3 = some res2 ∧
        res2.inp_index = res.inp_index ∧ res2.cur_value = res.cur_value
  | [], outIdx, i, cv, c, c3, res => by
      intro h
      simp only [kernelLoop, Option.some.injEq] at h
      subst h
      exact ⟨⟨[], i, cv, c3⟩, rfl, rfl, rfl⟩
  | o :: rest, outIdx, i, cv, c, c3, res => by
      intro h
      rw [kernelLoop_cons] at h
      rw [kernelLoop_cons]
      cases heq : consumeLoop inputs inCS o.value (inputs.length + 1) i cv
          (if cv = 0 then true else c) with
      | none => rw [heq] at h; simp at h
      | some trip =>
          obtain ⟨i2, cv2, c2⟩ := trip
          rw [heq] at h
          dsimp only at h
          obtain ⟨c4, hc4⟩ := consumeLoop_indep inputs inCS inCS2 o.value hlen
            (inputs.length + 1) i cv (if cv = 0 then true else c) i2 cv2 c2
            (if cv = 0 then true else c3) heq
          rw [hc4]
          dsimp only
          cases heq2 : kernelLoop inputs inCS isG gidx rest (outIdx + 1) i2 cv2
              (if isG && outIdx == gidx then true else c2) with
          | none => rw [heq2] at h; simp at h
          | some res2 =>
              rw [heq2] at h
              simp only [Option.some.injEq] at h
              subst h
              obtain ⟨res3, hres3, he1, he2⟩ :=
                kernelLoop_indep inputs inCS inCS2 gidx isG isG2 hlen rest
                  (outIdx + 1) i2 cv2 (if isG && outIdx == gidx then true else c2)
                  (if isG2 && outIdx == gidx then true else c4) res2 heq2
              rw [hres3]
              exact ⟨_, rfl, he1, he2⟩

/-- On a genesis run, the output sitting at the genesis `outindex` comes
out present with its full value, whatever the loop state. -/
theorem kernelLoop_genesis_out (inputs : List TxInput) (inCS : List ColorState)
    (gidx : Nat) :
    ∀ outs outIdx i cv c res,
      kernelLoop inputs inCS true gidx outs outIdx i cv c = some res →
      ∀ (k : Nat) (o : TxOutput), outs[k]? = some o → outIdx + k = gidx →
      res.out_colorstates[k]? = some (some (o.value, ""))
  | [], outIdx, i, cv, c, res => by
      intro h k o hk hg
      simp at hk
  | o1 :: rest, outIdx, i, cv, c, res => by
      intro h k o hk hg
      rw [kernelLoop_cons] at h
      cases heq : consumeLoop inputs inCS o1.value (inputs.length + 1) i cv
          (if cv = 0 then true else c) with
      | none => rw [heq] at h; simp at h
      | some trip =>
          obtain ⟨i2, cv2, c2⟩ := trip
          rw [heq] at h
          dsimp only at h
          cases heq2 : kernelLoop inputs inCS true gidx rest (outIdx + 1) i2 cv2
              (if true && outIdx == gidx then true else c2) with
          | none => rw [heq2] at h; simp at h
          | some res2 =>
              rw [heq2] at h
              simp only [Option.some.injEq] at h
              subst h
              cases k with
              | zero =>
                  simp only [List.getElem?_cons_zero, Option.some.injEq] at hk
                  subst hk
                  have hb : (outIdx == gidx) = true := by
                    rw [beq_iff_eq]
                    omega
                  simp [hb]
              | succ k =>
                  dsimp only
                  simp only [List.getElem?_cons_succ]
                  exact kernelLoop_genesis_out inputs inCS gidx rest (outIdx + 1)
                    i2 cv2 _ res2 heq2 k o (by simpa using hk) (by omega)

/-- C2: on a transaction whose hash equals the genesis txhash, if the
input walk completes, `run_kernel` marks the output at the genesis
`outindex` present with its full value; it does so for every full-length
assignment of `in_colorstates` (including all-absent), always ending with
the same `inp_index` and `cur_value`; and the ordinary (non-genesis) walk
from the same start consumes exactly the same inputs, so the override
consumes nothing extra. -/
theorem obc_genesis_mint (cd : OBColorDefinition) (tx : Tx) (inCS : List ColorState)
    (o : TxOutput) (res : KernelResult)
    (hhash : tx.hash = cd.genesis.txhash)
    (hlen : inCS.length = tx.inputs.length)
    (hrun : runKernelFull cd tx inCS = some res)
    (ho : tx.outputs[cd.genesis.outindex]? = some o) :
    res.out_colorstates[cd.genesis.outindex]? = some (some (o.value, "")) ∧
    (∀ inCS2 : List ColorState, inCS2.length = tx.inputs.length →
      ∃ res2, runKernelFull cd tx inCS2 = some res2 ∧
        res2.out_colorstates[cd.genesis.outindex]? = some (some (o.value, "")) ∧
        res2.inp_index = res.inp_index ∧ res2.cur_value = res.cur_value) ∧
    (∃ res0, kernelLoop tx.inputs inCS false cd.genesis.outindex tx.outputs
        0 0 0 false = some res0 ∧
      res0.inp_index = res.inp_index ∧ res0.cur_value = res.cur_value) := by
  unfold runKernelFull at hrun
  rw [beq_iff_eq.mpr hhash] at hrun
  refine ⟨?_, ?_, ?_⟩
  · exact kernelLoop_genesis_out tx.inputs inCS cd.genesis.outindex tx.outputs
      0 0 0 false res hrun cd.genesis.outindex o ho (by omega)
  · intro inCS2 hlen2
    obtain ⟨res2, hres2, he1, he2⟩ := kernelLoop_indep tx.inputs inCS inCS2
      cd.genesis.outindex true true hlen2 tx.outputs 0 0 0 false false res hrun
    refine ⟨res2, ?_, ?_, he1, he2⟩
    · unfold runKernelFull
      rw [beq_iff_eq.mpr hhash]
      exact hres2
    · exact kernelLoop_genesis_out tx.inputs inCS2 cd.genesis.outindex tx.outputs
        0 0 0 false res2 hres2 cd.genesis.outindex o ho (by omega)
  · exact kernelLoop_indep tx.inputs inCS inCS cd.genesis.outindex true false
      hlen tx.outputs 0 0 0 false false res hrun

/-- Witness for `obc_genesis_mint`: genesis tx with one absent input of
value 5 and one output of value 5; the run completes and the output at
the genesis outindex 0 is present as `(5, "")`. -/
theorem obc_genesis_mint_witness :
    ("g" : String) = "g" ∧
    ([none] : List ColorState).length = ([⟨5⟩] : List TxInput).length ∧
    runKernelFull ⟨1, ⟨"g", 0, 0⟩⟩ ⟨"g", [⟨5⟩], [⟨5⟩]⟩ [none] =
      some ⟨[some (5, "")], 1, 5, true⟩ ∧
    (⟨[some (5, "")], 1, 5, true⟩ : KernelResult).out_colorstates[0]? =
      some (some (5, "")) :=
  ⟨rfl, rfl, by decide,
    (obc_genesis_mint ⟨1, ⟨"g", 0, 0⟩⟩ ⟨"g", [⟨5⟩], [⟨5⟩]⟩ [none] ⟨5⟩
      ⟨[some (5, "")], 1, 5, true⟩ rfl rfl (by decide) (by decide)).1⟩

/-! ## Claim C3 — alignment carry-over on inputs [100], outputs [40, 60] -/

/-- C3: with one input of value 100 and outputs 40 and 60 on a
non-genesis transaction, a present `in_colorstates[0]` makes both outputs
present (after output 0, `cur_value` is 100, not 0, so output 1 does not
reset and stays colored), and an absent `in_colorstates[0]` leaves both
outputs absent. -/
theorem obc_alignment_carryover (cd : OBColorDefinition) (h : String)
    (cs : Nat × String) (hhash : h ≠ cd.genesis.txhash) :
    cd.run_kernel ⟨h, [⟨100⟩], [⟨40⟩, ⟨60⟩]⟩ [some cs] =
      some [some (40, ""), some (60, "")] ∧
    cd.run_kernel ⟨h, [⟨100⟩], [⟨40⟩, ⟨60⟩]⟩ [none] = some [none, none] := by
  unfold OBColorDefinition.run_kernel runKernelFull
  dsimp only
  rw [beq_eq_false_iff_ne.mpr hhash]
  exact ⟨rfl, rfl⟩

/-- Witness for `obc_alignment_carryover` with hash "t", genesis hash
"g" and a concrete present colorstate. -/
theorem obc_alignment_carryover_witness :
    ("t" : String) ≠ "g" ∧
    OBColorDefinition.run_kernel ⟨1, ⟨"g", 0, 0⟩⟩ ⟨"t", [⟨100⟩], [⟨40⟩, ⟨60⟩]⟩
      [some (100, "")] = some [some (40, ""), some (60, "")] ∧
    OBColorDefinition.run_kernel ⟨1, ⟨"g", 0, 0⟩⟩ ⟨"t", [⟨100⟩], [⟨40⟩, ⟨60⟩]⟩
      [none] = some [none, none] :=
  ⟨by decide,
    (obc_alignment_carryover ⟨1, ⟨"g", 0, 0⟩⟩ "t" (100, "") (by decide)).1,
    (obc_alignment_carryover ⟨1, ⟨"g", 0, 0⟩⟩ "t" (100, "") (by decide)).2⟩

/-! ## Claim C5 — zero-value outputs

A zero-value output makes the `while` loop exit immediately, so no input
is consumed and the colorstate of the output is decided by the `colored` flag
alone.  The claim as stated overlooks the genesis override, which can
force such an output present even though the carried flag is false. -/

theorem consumeLoop_target_zero (inputs : List TxInput) (inCS : List ColorState) :
    ∀ fuel i cv c, consumeLoop inputs inCS 0 fuel i cv c = some (i, cv, c) := by
  intro fuel i cv c
  cases fuel <;> simp [consumeLoop]

/-- C5 (amended): processing a zero-value output consumes no inputs
(`inp_index` and `cur_value` are passed unchanged to the rest of the
loop) and its colorstate is present exactly when the carried `colored`
flag — after the alignment reset at `cur_value = 0`, and after the
genesis override, which forces it to true at the genesis outindex — is
true.  Without the genesis exception the claim fails, see the
counterexample. -/
theorem obc_zero_value_output (inputs : List TxInput) (inCS : List ColorState)
    (isG : Bool) (gidx : Nat) (o : TxOutput) (rest : List TxOutput)
    (outIdx i cv : Nat) (c : Bool) (hzero : o.value = 0) :
    kernelLoop inputs inCS isG gidx (o :: rest) outIdx i cv c =
      (kernelLoop inputs inCS isG gidx rest (outIdx + 1) i cv
          (if isG && outIdx == gidx then true
           else if cv = 0 then true else c)).map
        (fun res =>
          ⟨(if (if isG && outIdx == gidx then true
                else if cv = 0 then true else c) then some (o.value, "") else none) ::
              res.out_colorstates,
            res.inp_index, res.cur_value, res.colored⟩) := by
  rw [kernelLoop_cons, hzero, consumeLoop_target_zero]
  dsimp only
  cases hk : kernelLoop inputs inCS isG gidx rest (outIdx + 1) i cv
      (if isG && outIdx == gidx then true else if cv = 0 then true else c) with
  | none => simp
  | some res => simp

/-- Witness for `obc_zero_value_output`: a zero-value output reached with
`cur_value = 50` and `colored = false` on a non-genesis run stays absent
and consumes nothing. -/
theorem obc_zero_value_output_witness :
    ((⟨0⟩ : TxOutput).value = 0) ∧
    kernelLoop [⟨50⟩] [none] false 0 [⟨0⟩] 1 1 50 false =
      some ⟨[none], 1, 50, false⟩ := by
  refine ⟨rfl, ?_⟩
  rw [obc_zero_value_output [⟨50⟩] [none] false 0 ⟨0⟩ [] 1 1 50 false rfl]
  decide

/-- C5 counterexample: on the genesis transaction, the zero-value output
at genesis outindex 1 is reached with the carried flag false (the
otherwise identical non-genesis run leaves it absent), yet it comes out
present `(0, "")`: its colorstate is not equal to the carried flag. -/
theorem obc_zero_output_flag_counterexample :
    OBColorDefinition.run_kernel ⟨1, ⟨"g", 0, 1⟩⟩ ⟨"g", [⟨50⟩], [⟨50⟩, ⟨0⟩]⟩ [none] =
      some [none, some (0, "")] ∧
    OBColorDefinition.run_kernel ⟨1, ⟨"g", 0, 1⟩⟩ ⟨"t", [⟨50⟩], [⟨50⟩, ⟨0⟩]⟩ [none] =
      some [none, none] := by
  refine ⟨by decide, by decide⟩

/-- C6: the claim expects a UTXO to be kept when ANY of its resolved
colorvalues matches the color set of the query, but the code inspects only
the first one.  Here the address declares color set {3} (not {0}), the
query set is {3}, and the cache resolves the colorvalues of the UTXO to
[(5, 1), (3, 1)]: color 3 is in the set (first conjunct), so the claim
keeps the UTXO, yet the code returns the empty list (second conjunct)
because `relevant` only looks at the first colorvalue (5, 1). -/
theorem utxo_query_checks_only_first_colorvalue :
    ColorSet.has_color_id ⟨{3}⟩ 3 = true ∧
    UTXOQuery_get_utxos_for_address ⟨{3}⟩ ⟨{3}⟩ [⟨"t", 0, 10, []⟩]
      (fun _ _ _ => [(5, 1), (3, 1)]) = [] := by
  refine ⟨by decide, by decide⟩

/-- C9: after any successful `add_utxo`, a second `add_utxo` with the
same `(txhash, outindex)` outpoint — whatever the other column values —
fails with the constraint error and leaves the rows unchanged. -/
theorem utxo_duplicate_outpoint_rejected (s s2 : UTXOStore)
    (a1 a2 th : String) (oi v1 v2 : Nat) (sc1 sc2 : String)
    (st1 st2 c1 c2 : Nat)
    (h : s.add_utxo a1 th oi v1 sc1 st1 c1 = (s2, none)) :
    s2.add_utxo a2 th oi v2 sc2 st2 c2 =
      (s2, some "IntegrityError: columns txhash, outindex are not unique") := by
  unfold UTXOStore.add_utxo at h ⊢
  split at h
  · simp at h
  · simp only [Prod.mk.injEq] at h
    obtain ⟨h1, -⟩ := h
    subst h1
    simp [List.any_append]

/-- Witness for `utxo_duplicate_outpoint_rejected`: insert into the empty
store, then insert the same outpoint again. -/
theorem utxo_duplicate_outpoint_rejected_witness :
    UTXOStore.add_utxo ⟨[], 0⟩ "a" "h" 0 5 "s" 7 0 =
      (⟨[⟨0, "a", "h", 0, 5, "s", 7, 0⟩], 1⟩, none) ∧
    UTXOStore.add_utxo ⟨[⟨0, "a", "h", 0, 5, "s", 7, 0⟩], 1⟩ "b" "h" 0 9 "s2" 8 1 =
      (⟨[⟨0, "a", "h", 0, 5, "s", 7, 0⟩], 1⟩,
        some "IntegrityError: columns txhash, outindex are not unique") :=
  ⟨by decide,
    utxo_duplicate_outpoint_rejected ⟨[], 0⟩ ⟨[⟨0, "a", "h", 0, 5, "s", 7, 0⟩], 1⟩
      "a" "b" "h" 0 5 9 "s" "s2" 7 8 0 1 (by decide)⟩

/-- A target list containing a target with an unsupported color id makes
the partition loop raise. -/
theorem partitionTargets_bad (color_id : Nat) :
    ∀ ts : List Target, ∀ t ∈ ts, t.2.1 ≠ color_id → t.2.1 ≠ 0 →
      partitionTargets color_id ts =
        Except.error "ColorDef cannot work with this color_id"
  | [] => by
      intro t ht
      simp at ht
  | t1 :: rest => by
      intro t ht h1 h0
      simp only [partitionTargets]
      by_cases hc : t1.2.1 = color_id
      · rw [if_pos hc]
        have hr : t ∈ rest := by
          rcases List.mem_cons.mp ht with rfl | hr
          · exact absurd hc h1
          · exact hr
        rw [partitionTargets_bad color_id rest t hr h1 h0]
        rfl
      · rw [if_neg hc]
        by_cases hz : t1.2.1 = 0
        · rw [if_pos hz]
          have hr : t ∈ rest := by
            rcases List.mem_cons.mp ht with rfl | hr
            · exact absurd hz h0
            · exact hr
          rw [partitionTargets_bad color_id rest t hr h1 h0]
          rfl
        · rw [if_neg hz]

/-- C7: if any spend target carries a color id that is neither the
own `color_id` of the definition nor the uncolored marker 0, the whole
composition fails with the configuration error and the `select_coins`
call log is empty: no coin selection is performed. -/
theorem compose_unsupported_color_rejected (cd : OBColorDefinition)
    (spec : OpTxSpec) (t : Target) (ht : t ∈ spec.targets)
    (h1 : t.2.1 ≠ cd.color_id) (h0 : t.2.1 ≠ 0) :
    cd.compose_tx_spec spec =
      (Except.error "ColorDef cannot work with this color_id", []) := by
  unfold OBColorDefinition.compose_tx_spec
  rw [partitionTargets_bad cd.color_id spec.targets t ht h1 h0]

/-- Witness for `compose_unsupported_color_rejected`: one target with
color id 7 against a definition with color id 1. -/
theorem compose_unsupported_color_rejected_witness :
    ((TField.num 5, 7, TField.num 5) : Target) ∈
      [((TField.num 5, 7, TField.num 5) : Target)] ∧
    (7 : Nat) ≠ 1 ∧ (7 : Nat) ≠ 0 ∧
    OBColorDefinition.compose_tx_spec ⟨1, ⟨"g", 0, 0⟩⟩
      ⟨[(TField.num 5, 7, TField.num 5)], fun _ n => ([], n), fun n => n,
        fun _ => "chg"⟩ =
      (Except.error "ColorDef cannot work with this color_id", []) :=
  ⟨by decide, by decide, by decide,
    compose_unsupported_color_rejected ⟨1, ⟨"g", 0, 0⟩⟩
      ⟨[(TField.num 5, 7, TField.num 5)], fun _ n => ([], n), fun n => n,
        fun _ => "chg"⟩
      (TField.num 5, 7, TField.num 5) (by decide) (by decide) (by decide)⟩

/-- C8: a single supported spend target of value 10 carrying
the own color id of the definition, with coin selection exactly
covering each request: both coin
selections run (log `[(1, 10), (1, 750)]`), but instead of emitting the
composed draft, the output construction fails with the AttributeError
produced by `TxOut(target[2]. target[0])`; no draft is ever returned for
a non-empty target list. -/
theorem compose_txout_attribute_error :
    OBColorDefinition.compose_tx_spec ⟨1, ⟨"g", 0, 0⟩⟩
      ⟨[(TField.addr "dst", 1, TField.num 10)], fun _ n => (["coin"], n),
        fun n => n, fun _ => "chg"⟩ =
      (Except.error "AttributeError: tuple object has no attribute target",
        [(1, 10), (1, 750)]) := rfl

/-- C10: every `select_coins` call made by `compose_tx_spec` passes the
own `color_id` of the definition — in particular, the selection covering
`uncolored_needed + fee` uses `self.color_id`, not the uncolored marker
0: the call log is either empty (error before selection) or exactly two
entries tagged with the color id of the definition. -/
theorem compose_selects_with_own_color (cd : OBColorDefinition) (spec : OpTxSpec) :
    (cd.compose_tx_spec spec).2 = [] ∨
    ∃ a b : Nat, (cd.compose_tx_spec spec).2 =
      [(cd.color_id, a), (cd.color_id, b)] := by
  unfold OBColorDefinition.compose_tx_spec
  cases partitionTargets cd.color_id spec.targets with
  | error e => exact Or.inl rfl
  | ok buckets =>
      dsimp only
      cases sumTargets buckets.1 with
      | error e => exact Or.inl rfl
      | ok colored_needed =>
          dsimp only
          cases sumTargets buckets.2 with
          | error e => exact Or.inl rfl
          | ok uncolored_needed => exact Or.inr ⟨colored_needed,
              uncolored_needed + spec.required_fee 750, rfl⟩
